import Mathlib

/-!
# uaiso: the AST node model of `Ast/AstBase.h`

A shallow embedding of the root class `uaiso::Ast` (the `Kind` enumeration, the
bit-field discriminant, `kindStr`, the six category predicates) and of the
member-generating macros `NAMED_AST_PARAM`, `NAMED_AST_LIST_PARAM`,
`NAMED_LOC_PARAM` with their `__BASE__` defaults and forwarding overrides.

The header `Ast/AstDefs.h`, which defines the six `*_AST_MIXIN` lists, is taken
as a parameter (`Mixins`).  Machine integers are natural numbers with an
explicit reduction modulo the width of the field that stores them.

The scope model and the completion engine, of which the sources at hand hold
only the test cases `Python/PyCompletionTest.cpp`, are modelled from the spec.
-/

namespace uaiso

/-! ## The `Kind` enumeration -/

/-- The six node categories, in the order in which `enum class Kind` lays out
their marker pairs. -/
inductive Category where
  | Name | Spec | Attr | Decl | Expr | Stmt
  deriving DecidableEq, Repr

/-- The contents of the six mixin lists of `Ast/AstDefs.h`.  Every entry is the
argument pair `(AST_NODE, AST_KIND)` that reaches `MAKE_CASE`: inside the enum it
declares the enumerator `AST_NODE##AST_KIND`, inside `kindStr` it produces the
case returning the literal `#AST_NODE#AST_KIND`. -/
structure Mixins where
  name : List (String × String)
  spec : List (String × String)
  attr : List (String × String)
  decl : List (String × String)
  expr : List (String × String)
  stmt : List (String × String)
  deriving Repr

/-- The mixin list of a category. -/
def Mixins.entries (M : Mixins) : Category → List (String × String)
  | .Name => M.name
  | .Spec => M.spec
  | .Attr => M.attr
  | .Decl => M.decl
  | .Expr => M.expr
  | .Stmt => M.stmt

/-- The underlying type of `Kind` is `uint16_t`. -/
abbrev KindType := Nat

/-- Number of values of `KindType`. -/
def KindType.size : Nat := 2 ^ 16

/-- Conversion `static_cast<KindType>(...)` of an integer value. -/
def toKindType (v : Nat) : KindType := v % KindType.size

namespace Kind

/-! Enumerators without an initialiser: the first one is `0`, every other one
is its predecessor plus one.  A mixin of `n` entries declares `n` consecutive
enumerators. -/

def Invalid : Nat := 0
def FirstNameMarker__ (_ : Mixins) : Nat := Invalid + 1
def LastNameMarker__ (M : Mixins) : Nat := FirstNameMarker__ M + M.name.length + 1
def FirstSpecMarker__ (M : Mixins) : Nat := LastNameMarker__ M + 1
def LastSpecMarker__ (M : Mixins) : Nat := FirstSpecMarker__ M + M.spec.length + 1
def FirstAttrMarker__ (M : Mixins) : Nat := LastSpecMarker__ M + 1
def LastAttrMarker__ (M : Mixins) : Nat := FirstAttrMarker__ M + M.attr.length + 1
def FirstDeclMarker__ (M : Mixins) : Nat := LastAttrMarker__ M + 1
def LastDeclMarker__ (M : Mixins) : Nat := FirstDeclMarker__ M + M.decl.length + 1
def FirstExprMarker__ (M : Mixins) : Nat := LastDeclMarker__ M + 1
def LastExprMarker__ (M : Mixins) : Nat := FirstExprMarker__ M + M.expr.length + 1
def FirstStmtMarker__ (M : Mixins) : Nat := LastExprMarker__ M + 1
def LastStmtMarker__ (M : Mixins) : Nat := FirstStmtMarker__ M + M.stmt.length + 1
def Program (M : Mixins) : Nat := LastStmtMarker__ M + 1
def Generator (M : Mixins) : Nat := Program M + 1
def Filter (M : Mixins) : Nat := Generator M + 1

/-- The `First...Marker__` enumerator of a category. -/
def firstMarker (M : Mixins) : Category → Nat
  | .Name => FirstNameMarker__ M
  | .Spec => FirstSpecMarker__ M
  | .Attr => FirstAttrMarker__ M
  | .Decl => FirstDeclMarker__ M
  | .Expr => FirstExprMarker__ M
  | .Stmt => FirstStmtMarker__ M

/-- The `Last...Marker__` enumerator of a category. -/
def lastMarker (M : Mixins) : Category → Nat
  | .Name => LastNameMarker__ M
  | .Spec => LastSpecMarker__ M
  | .Attr => LastAttrMarker__ M
  | .Decl => LastDeclMarker__ M
  | .Expr => LastExprMarker__ M
  | .Stmt => LastStmtMarker__ M

/-- The enumerator declared by entry number `i` (counted from `0`) of the mixin
of category `c`: it follows the category's first marker. -/
def ofMixin (M : Mixins) (c : Category) (i : Nat) : Nat :=
  firstMarker M c + 1 + i

end Kind

/-- The enumeration is well formed for its underlying type: the last
enumerator, `Filter`, is a `uint16_t` value. -/
def Mixins.Fits (M : Mixins) : Prop := Kind.Filter M < KindType.size

instance (M : Mixins) : Decidable M.Fits := by
  unfold Mixins.Fits; infer_instance

/-! ## The root class `Ast` -/

/-- The bit-fields `kind : 16`, `variety : 4`, `alloc : 2`. -/
structure BitFields where
  kind : Nat
  variety : Nat
  alloc : Nat
  deriving DecidableEq, Repr

/-- The data of the root class: the anonymous union read through `bit_`. -/
structure Ast where
  bit_ : BitFields
  deriving DecidableEq, Repr

namespace Ast

/-- Constructor `Ast() : bits_(0)`. -/
def default : Ast := ⟨⟨0, 0, 0⟩⟩

/-- Constructor `Ast(Kind kind) : bits_(0) { bit_.kind = static_cast<KindType>(kind); }`;
the store keeps the 16 bits of the field. -/
def ofKind (kind : Nat) : Ast :=
  { default with bit_ := { default.bit_ with kind := toKindType kind % 2 ^ 16 } }

/-- Member `kind()`: `Kind(bit_.kind)`. -/
def kind (a : Ast) : Nat := a.bit_.kind

/-- Member `checkKind`. -/
def checkKind (a : Ast) (firstMarker lastMarker : Nat) : Bool :=
  decide (a.bit_.kind > toKindType firstMarker) && decide (a.bit_.kind < toKindType lastMarker)

def isName (M : Mixins) (a : Ast) : Bool :=
  a.checkKind (Kind.FirstNameMarker__ M) (Kind.LastNameMarker__ M)

def isSpec (M : Mixins) (a : Ast) : Bool :=
  a.checkKind (Kind.FirstSpecMarker__ M) (Kind.LastSpecMarker__ M)

def isAttr (M : Mixins) (a : Ast) : Bool :=
  a.checkKind (Kind.FirstAttrMarker__ M) (Kind.LastAttrMarker__ M)

def isDecl (M : Mixins) (a : Ast) : Bool :=
  a.checkKind (Kind.FirstDeclMarker__ M) (Kind.LastDeclMarker__ M)

def isExpr (M : Mixins) (a : Ast) : Bool :=
  a.checkKind (Kind.FirstExprMarker__ M) (Kind.LastExprMarker__ M)

def isStmt (M : Mixins) (a : Ast) : Bool :=
  a.checkKind (Kind.FirstStmtMarker__ M) (Kind.LastStmtMarker__ M)

/-- The category predicate that belongs to a category. -/
def isOf (M : Mixins) : Category → Ast → Bool
  | .Name => isName M
  | .Spec => isSpec M
  | .Attr => isAttr M
  | .Decl => isDecl M
  | .Expr => isExpr M
  | .Stmt => isStmt M

end Ast

/-- A small instance of the mixin lists, used to evaluate the model. -/
def demoMixins : Mixins where
  name := [("Simple", "Name"), ("Nested", "Name")]
  spec := [("Void", "Spec"), ("Bool", "Spec"), ("Named", "Spec")]
  attr := [("Storage", "Attr")]
  decl := [("Var", "Decl"), ("Func", "Decl")]
  expr := [("Call", "Expr"), ("Member", "Expr"), ("Ident", "Expr")]
  stmt := [("If", "Stmt"), ("Block", "Stmt")]

/-! ## `kindStr` -/

/-- Outcome of a function containing `UAISO_ASSERT`: the value it returns and
whether an assertion failed on the way. -/
structure Asserted (α : Type) where
  value : α
  failed : Bool
  deriving DecidableEq, Repr

/-- The `case` labels one mixin contributes to the switch of `kindStr`, through
`MAKE_CASE`: the label of an entry is its enumerator converted to `KindType`,
its statement returns `#AST_NODE#AST_KIND`.  `label` is the enumerator of the
first entry. -/
def mixinCases (label : Nat) : List (String × String) → List (Nat × String)
  | [] => []
  | (node, kind) :: rest => (toKindType label, node ++ kind) :: mixinCases (label + 1) rest

/-- All `case` labels of the switch of `kindStr`, in source order. -/
def switchCases (M : Mixins) : List (Nat × String) :=
  mixinCases (Kind.ofMixin M .Name 0) M.name ++
  mixinCases (Kind.ofMixin M .Spec 0) M.spec ++
  mixinCases (Kind.ofMixin M .Attr 0) M.attr ++
  mixinCases (Kind.ofMixin M .Decl 0) M.decl ++
  mixinCases (Kind.ofMixin M .Expr 0) M.expr ++
  mixinCases (Kind.ofMixin M .Stmt 0) M.stmt

/-- Static member `kindStr`: the switch on `static_cast<KindType>(kind)`.  The
`default` label runs `UAISO_ASSERT(false, return "")` and then `return ""`. -/
def Ast.kindStr (M : Mixins) (kind : Nat) : Asserted String :=
  match (switchCases M).lookup (toKindType kind) with
  | some str => ⟨str, false⟩
  | none => ⟨"", true⟩

/-! ## List nodes -/

/-- Modelled from the spec: the list node class `PARAM_TYPE##List`, declared
outside this header; "an ordered, homogeneous sequence of one node kind".  The
items are of type `ι`. -/
structure AstList (ι : Type) where
  elems : List ι
  deriving DecidableEq, Repr

namespace AstList

variable {ι : Type}

/-- Modelled from the spec: `PARAM_TYPE##List::create(item)`, declared outside
this header; the list that `add` creates "lazily on first use", holding the
item. -/
def create (item : ι) : AstList ι := ⟨[item]⟩

/-- Modelled from the spec: `append(item)`, declared outside this header;
"`append` preserves insertion order". -/
def append (l : AstList ι) (item : ι) : AstList ι := ⟨l.elems ++ [item]⟩

/-- Modelled from the spec: `merge(other)`, declared outside this header;
"concatenates `other`'s elements onto the receiver".  An absent `other` has no
elements to concatenate. -/
def merge (l : AstList ι) (other : Option (AstList ι)) : AstList ι :=
  match other with
  | none => l
  | some o => ⟨l.elems ++ o.elems⟩

/-- Number of items. -/
def length (l : AstList ι) : Nat := l.elems.length

end AstList

/-- Number of items a list slot holds: none when it holds no list. -/
def slotLength {ι : Type} : Option (AstList ι) → Nat
  | none => 0
  | some l => l.length

/-- The items a list slot holds, in order: none when it holds no list. -/
def slotElems {ι : Type} : Option (AstList ι) → List ι
  | none => []
  | some l => l.elems

/-! ## Nodes with macro-generated members

A node class is the root class plus the members its macro invocations declare.
`S` is the type of member names (`MEMBER`), `α` the type of child nodes, `L` the
type `SourceLoc` (declared in `Parsing/SourceLoc.h`).  An owning or raw pointer
to a child is an `Option α`. -/

/-- The `Self*` a mutator returns: `nullptr` or `this`. -/
inductive SelfPtr where
  | null | self
  deriving DecidableEq, Repr

/-- A node: the root class, the `MEMBER##_` of each `NAMED_AST_PARAM`, the
`MEMBER##_` of each `NAMED_AST_LIST_PARAM` and the `MEMBER##Loc_` of each
`NAMED_LOC_PARAM`. -/
structure Node (S α L : Type) extends Ast where
  member_ : S → Option α
  list_ : S → Option (AstList (Option α))
  loc_ : S → L

/-- What a mutator call leaves behind: the node afterwards and the pointer
returned. -/
structure Call (S α L : Type) where
  node : Node S α L
  ret : SelfPtr

namespace Node

variable {S α L : Type} [DecidableEq S]

/-! ### `NAMED_AST_PARAM` -/

/-- Overload `set##NAME(PARAM_TYPE* param)`: `MEMBER##_.reset(param); return this;`. -/
def setNAME_ptr (n : Node S α L) (X : S) (param : Option α) : Call S α L :=
  ⟨{ n with member_ := Function.update n.member_ X param }, .self⟩

/-- Overload `set##NAME(std::unique_ptr<PARAM_TYPE> param)`:
`MEMBER##_ = std::move(param); return this;`. -/
def setNAME (n : Node S α L) (X : S) (param : Option α) : Call S α L :=
  ⟨{ n with member_ := Function.update n.member_ X param }, .self⟩

/-- Accessor `MEMBER()` of `NAMED_AST_PARAM`: `MEMBER##_.get()`. -/
def MEMBER (n : Node S α L) (X : S) : Option α := n.member_ X

/-- Macro `CREATE_WITH_AST`: `auto ast = create(); ast->set##AST_MEMBER(std::move(p));
return ast;`, where `created` is the node `create()` yields. -/
def createWithAst (created : Node S α L) (X : S) (p : Option α) : Node S α L :=
  (created.setNAME X p).node

/-! ### `NAMED_AST_LIST_PARAM` -/

/-- Overload `add##NAME(PARAM_TYPE* param)`. -/
def addNAME_ptr (n : Node S α L) (X : S) (param : Option α) : Call S α L :=
  match n.list_ X with
  | some l => ⟨{ n with list_ := Function.update n.list_ X (some (l.append param)) }, .self⟩
  | none => ⟨{ n with list_ := Function.update n.list_ X (some (AstList.create param)) }, .self⟩

/-- Member `merge##NAME##s(std::unique_ptr<PARAM_TYPE##List> param)`. -/
def mergeNAMEs (n : Node S α L) (X : S) (param : Option (AstList (Option α))) : Call S α L :=
  match n.list_ X with
  | some l => ⟨{ n with list_ := Function.update n.list_ X (some (l.merge param)) }, .self⟩
  | none => ⟨{ n with list_ := Function.update n.list_ X param }, .self⟩

/-- Member `set##NAME##s(std::unique_ptr<PARAM_TYPE##List> param)`. -/
def setNAMEs (n : Node S α L) (X : S) (param : Option (AstList (Option α))) : Call S α L :=
  ⟨{ n with list_ := Function.update n.list_ X param }, .self⟩

/-- Overload `add##NAME(std::unique_ptr<PARAM_TYPE> param)`. -/
def addNAME (n : Node S α L) (X : S) (param : Option α) : Call S α L :=
  match n.list_ X with
  | some l => ⟨{ n with list_ := Function.update n.list_ X (some (l.append param)) }, .self⟩
  | none => ⟨{ n with list_ := Function.update n.list_ X (some (AstList.create param)) }, .self⟩

/-- Member `set##NAME##s##SR(PARAM_TYPE##List* param)`:
`MEMBER##_.reset(param->finishSR()); return this;`.  `finishSR` is a member of
the list class, declared outside this header. -/
def setNAMEsSR (finishSR : AstList (Option α) → Option (AstList (Option α)))
    (n : Node S α L) (X : S) (param : AstList (Option α)) : Call S α L :=
  ⟨{ n with list_ := Function.update n.list_ X (finishSR param) }, .self⟩

/-- Accessor `MEMBER()` of `NAMED_AST_LIST_PARAM`: `MEMBER##_.get()`. -/
def MEMBERs (n : Node S α L) (X : S) : Option (AstList (Option α)) := n.list_ X

/-! ### `NAMED_LOC_PARAM` -/

/-- Member `set##NAME##Loc(const SourceLoc& param)`. -/
def setNAMELoc (n : Node S α L) (X : S) (param : L) : Call S α L :=
  ⟨{ n with loc_ := Function.update n.loc_ X param }, .self⟩

/-- Accessor `MEMBER##Loc()`. -/
def MEMBERLoc (n : Node S α L) (X : S) : L := n.loc_ X

end Node

/-! ### The `__BASE__` defaults -/

namespace Base

variable {S α L : Type}

/-- Macro `NAMED_AST_PARAM__BASE__`: `virtual Self* set##NAME(PARAM_TYPE*) { return nullptr; }`. -/
def setNAME (n : Node S α L) (_ : Option α) : Call S α L := ⟨n, .null⟩

/-- Macro `NAMED_AST_LIST_PARAM__BASE__`: `set##NAME##s(PARAM_TYPE##List*)`. -/
def setNAMEs_ptr (n : Node S α L) (_ : Option (AstList (Option α))) : Call S α L := ⟨n, .null⟩

/-- Macro `NAMED_AST_LIST_PARAM__BASE__`: `set##NAME##s##SR(PARAM_TYPE##List*)`. -/
def setNAMEsSR (n : Node S α L) (_ : Option (AstList (Option α))) : Call S α L := ⟨n, .null⟩

/-- Macro `NAMED_AST_LIST_PARAM__BASE__`: `set##NAME##s(std::unique_ptr<PARAM_TYPE##List>)`. -/
def setNAMEs (n : Node S α L) (_ : Option (AstList (Option α))) : Call S α L := ⟨n, .null⟩

/-- Macro `NAMED_LOC_PARAM__BASE__`: `virtual Self* set##NAME(const SourceLoc&) { return nullptr; }`. -/
def setNAMELoc (n : Node S α L) (_ : L) : Call S α L := ⟨n, .null⟩

end Base

/-! ### The forwarding overrides

`NAMED_AST_PARAM__`, `NAMED_AST_LIST_PARAM__` and `NAMED_LOC_PARAM__` call a
member `set...__` of a template base class, declared outside this header: its
effect on the node is the parameter `base__`. -/

namespace Override

variable {S α L : Type}

/-- Macro `NAMED_AST_PARAM__`: `TEMPLATE::set##NAME##__(param); return this;`. -/
def setNAME (base__ : Node S α L → Option α → Node S α L) (n : Node S α L)
    (param : Option α) : Call S α L :=
  ⟨base__ n param, .self⟩

/-- Macro `NAMED_AST_LIST_PARAM__`, `set##NAME##s(PARAM_TYPE##List* param)`. -/
def setNAMEs_ptr (base__ : Node S α L → Option (AstList (Option α)) → Node S α L)
    (n : Node S α L) (param : Option (AstList (Option α))) : Call S α L :=
  ⟨base__ n param, .self⟩

/-- Macro `NAMED_AST_LIST_PARAM__`, `set##NAME##s##SR(PARAM_TYPE##List* param)`:
forwards `param->finishSR()`. -/
def setNAMEsSR (base__ : Node S α L → Option (AstList (Option α)) → Node S α L)
    (finishSR : AstList (Option α) → Option (AstList (Option α)))
    (n : Node S α L) (param : AstList (Option α)) : Call S α L :=
  ⟨base__ n (finishSR param), .self⟩

/-- Macro `NAMED_AST_LIST_PARAM__`, `set##NAME##s(std::unique_ptr<PARAM_TYPE##List> param)`:
forwards `param.release()`. -/
def setNAMEs (base__ : Node S α L → Option (AstList (Option α)) → Node S α L)
    (n : Node S α L) (param : Option (AstList (Option α))) : Call S α L :=
  ⟨base__ n param, .self⟩

/-- Macro `NAMED_LOC_PARAM__`: `BASE_TEMPLATE::set##NAME##__(param); return this;`. -/
def setNAMELoc (base__ : Node S α L → L → Node S α L) (n : Node S α L) (param : L) :
    Call S α L :=
  ⟨base__ n param, .self⟩

end Override

/-! ### Mutator calls and fluent chains -/

/-- A call of one of the mutators that a node class supports, with its
arguments: the members generated by `NAMED_AST_PARAM`, `NAMED_AST_LIST_PARAM`
and `NAMED_LOC_PARAM`, and the overrides generated by `NAMED_AST_PARAM__`,
`NAMED_AST_LIST_PARAM__` and `NAMED_LOC_PARAM__`. -/
inductive Mutator (S α L : Type) where
  | setNAME_ptr (X : S) (param : Option α)
  | setNAME (X : S) (param : Option α)
  | addNAME_ptr (X : S) (param : Option α)
  | mergeNAMEs (X : S) (param : Option (AstList (Option α)))
  | setNAMEs (X : S) (param : Option (AstList (Option α)))
  | addNAME (X : S) (param : Option α)
  | setNAMEsSR (finishSR : AstList (Option α) → Option (AstList (Option α))) (X : S)
      (param : AstList (Option α))
  | setNAMELoc (X : S) (param : L)
  | overrideSetNAME (base__ : Node S α L → Option α → Node S α L) (param : Option α)
  | overrideSetNAMEs_ptr (base__ : Node S α L → Option (AstList (Option α)) → Node S α L)
      (param : Option (AstList (Option α)))
  | overrideSetNAMEsSR (base__ : Node S α L → Option (AstList (Option α)) → Node S α L)
      (finishSR : AstList (Option α) → Option (AstList (Option α)))
      (param : AstList (Option α))
  | overrideSetNAMEs (base__ : Node S α L → Option (AstList (Option α)) → Node S α L)
      (param : Option (AstList (Option α)))
  | overrideSetNAMELoc (base__ : Node S α L → L → Node S α L) (param : L)

namespace Mutator

variable {S α L : Type} [DecidableEq S]

/-- The call made on a node. -/
def apply (m : Mutator S α L) (n : Node S α L) : Call S α L :=
  match m with
  | .setNAME_ptr X param => n.setNAME_ptr X param
  | .setNAME X param => n.setNAME X param
  | .addNAME_ptr X param => n.addNAME_ptr X param
  | .mergeNAMEs X param => n.mergeNAMEs X param
  | .setNAMEs X param => n.setNAMEs X param
  | .addNAME X param => n.addNAME X param
  | .setNAMEsSR finishSR X param => n.setNAMEsSR finishSR X param
  | .setNAMELoc X param => n.setNAMELoc X param
  | .overrideSetNAME base__ param => Override.setNAME base__ n param
  | .overrideSetNAMEs_ptr base__ param => Override.setNAMEs_ptr base__ n param
  | .overrideSetNAMEsSR base__ finishSR param => Override.setNAMEsSR base__ finishSR n param
  | .overrideSetNAMEs base__ param => Override.setNAMEs base__ n param
  | .overrideSetNAMELoc base__ param => Override.setNAMELoc base__ n param

/-- The assumption on the template base class, declared outside this header,
under which a call keeps the discriminant: the member `set...__` a forwarding
override calls keeps `kind()`.  It is empty for the mutators whose body is in
this header in full. -/
def BaseKeepsKind : Mutator S α L → Prop
  | .overrideSetNAME base__ _ => ∀ n p, (base__ n p).kind = n.kind
  | .overrideSetNAMEs_ptr base__ _ => ∀ n p, (base__ n p).kind = n.kind
  | .overrideSetNAMEsSR base__ _ _ => ∀ n p, (base__ n p).kind = n.kind
  | .overrideSetNAMEs base__ _ => ∀ n p, (base__ n p).kind = n.kind
  | .overrideSetNAMELoc base__ _ => ∀ n p, (base__ n p).kind = n.kind
  | _ => True

end Mutator

/-- A fluent chain `n->m1(...)->m2(...)->...`: every further call is made
through the pointer the call before it returned.  A call through `nullptr` has
no result. -/
def chain {S α L : Type} : List (Node S α L → Call S α L) → Node S α L → Option (Node S α L)
  | [], n => some n
  | m :: ms, n =>
    match (m n).ret with
    | .self => chain ms (m n).node
    | .null => none

/-- The same calls made one after another, as separate statements on the
node. -/
def oneByOne {S α L : Type} : List (Node S α L → Call S α L) → Node S α L → Node S α L
  | [], n => n
  | m :: ms, n => oneByOne ms (m n).node

/-- A node of kind `kind` with no child, no list and every location `loc`,
used to evaluate the model. -/
def demoNode (kind : Nat) : Node String Nat (Nat × Nat) where
  toAst := Ast.ofKind kind
  member_ := fun _ => none
  list_ := fun _ => none
  loc_ := fun _ => (0, 0)

/-- A node of kind 15 that holds the child `4` in `body` and the list `1, 2` in
`stmts`, used to evaluate the model. -/
def framedNode : Node String Nat (Nat × Nat) where
  toAst := Ast.ofKind 15
  member_ := fun X => if X = "body" then some 4 else none
  list_ := fun X => if X = "stmts" then some ⟨[some 1, some 2]⟩ else none
  loc_ := fun _ => (0, 0)

/-! ### Range tests in the spec's words

The spec calls the category ranges "half-open".  The two half-open ranges that
a pair of markers delimits, to be compared with `Ast.checkKind`. -/

/-- The half-open range that contains its lower bound: `first ≤ k < last`. -/
def halfOpenFrom (first last k : Nat) : Bool := decide (first ≤ k) && decide (k < last)

/-- The half-open range that contains its upper bound: `first < k ≤ last`. -/
def halfOpenUpTo (first last k : Nat) : Bool := decide (first < k) && decide (k ≤ last)

/-! ## Scopes and completion

The scope builder and the completion engine are not part of the sources at
hand: only their test cases (`Python/PyCompletionTest.cpp`) are.  They are
modelled from the spec, sections 3, 4.3 and 4.4.  The lexer and parser are
external: the model starts from the scope tree of a source unit. -/

/-- Modelled from the spec: a "(line, column)" position, used for the cursor
and for the ends of a source span; the completion engine is missing. -/
structure Pos where
  line : Nat
  col : Nat
  deriving DecidableEq, Repr

/-- Modelled from the spec: the order of positions in the text, by line and
then by column; the completion engine is missing. -/
def Pos.le (a b : Pos) : Bool :=
  decide (a.line < b.line) || (decide (a.line = b.line) && decide (a.col ≤ b.col))

/-- Modelled from the spec: `SourceLoc`, "a position or span in source text",
here the span of a lexical construct; the completion engine is missing. -/
structure Span where
  first : Pos
  last : Pos
  deriving DecidableEq, Repr

/-- Modelled from the spec: a "source span contains the cursor"; the completion
engine is missing. -/
def Span.contains (s : Span) (cursor : Pos) : Bool :=
  s.first.le cursor && cursor.le s.last

/-- Modelled from the spec: a `Binding`, the "association of a name to its
declaring Ast node, to a set of candidate static types (usually one; more than
one only from unresolved flow merges), and to the branch path under which each
candidate type was established"; the scope builder is missing.  The declaring
node is given by the line it starts on. -/
structure Binding where
  name : String
  decl : Nat
  types : List String
  branch : List Nat
  deriving DecidableEq, Repr

/-- Modelled from the spec: a `Scope`, "a lexical binding environment", with
the span of its lexical construct, its Bindings in declaration order and the
scopes whose parent it is; the scope builder is missing. -/
inductive Scope where
  | mk (span : Span) (bindings : List Binding) (children : List Scope)

/-- Modelled from the spec: the span of the lexical construct of a scope; the
scope builder is missing. -/
def Scope.span : Scope → Span
  | .mk span _ _ => span

/-- Modelled from the spec: the Bindings declared directly in a scope; the scope
builder is missing. -/
def Scope.bindings : Scope → List Binding
  | .mk _ bindings _ => bindings

/-- Modelled from the spec: the static shape of the right-hand side of an
assignment, as far as the scope builder (missing) tells shapes apart: a call of
a name, or anything else. -/
inductive Rhs where
  | call (callee : String)
  | other
  deriving DecidableEq, Repr

/-- Modelled from the spec: the candidate types the scope builder (missing)
derives for `name = expr`: "the only resolved shape in this policy is
instantiation by call of a declared class name"; "other expression shapes leave
the candidate type unresolved (empty candidate set)", and a missing right-hand
side is "no candidate type available". -/
def candidateTypes (classes : List String) : Option Rhs → List String
  | some (.call callee) => if callee ∈ classes then [callee] else []
  | some .other => []
  | none => []

/-- Modelled from the spec: a class type with "that type's declared members
(fields and methods declared directly on it; inherited members included if the
type declares a base)"; the scope builder is missing. -/
structure ClassType where
  name : String
  members : List String
  deriving DecidableEq, Repr

/-- Modelled from the spec: the declared members of the type called `T`, none
when no such type is declared; the completion engine is missing. -/
def membersOf (types : List ClassType) (T : String) : List String :=
  match types.find? (fun c => c.name == T) with
  | some c => c.members
  | none => []

mutual

/-- Modelled from the spec: step 1 of completion (engine missing), "descending
the AST through spans that contain the cursor, tracking which Scope each
descent enters".  The scope is entered: its Bindings are put in front of those
of the scopes around it. -/
def Scope.enter (cursor : Pos) : Scope → List (List Binding) → List (List Binding)
  | .mk _ bindings children, outer => Scope.descend cursor children (bindings :: outer)

/-- Modelled from the spec: step 1 of completion (engine missing): the first
child scope whose span contains the cursor is entered; with no such child the
scope entered last is the innermost one. -/
def Scope.descend (cursor : Pos) : List Scope → List (List Binding) → List (List Binding)
  | [], chain => chain
  | s :: rest, chain =>
    if s.span.contains cursor then Scope.enter cursor s chain
    else Scope.descend cursor rest chain

end

/-- Modelled from the spec: step 1 of completion (engine missing), "locate the
innermost Scope whose lexical construct's source span contains the cursor".
The result is the scope chain: the Bindings of the innermost scope first, then
those of its parent, and so on to the module scope; it is empty when the
cursor is "outside any parsed span". -/
def locate (root : Scope) (cursor : Pos) : List (List Binding) :=
  if root.span.contains cursor then Scope.enter cursor root [] else []

/-- Modelled from the spec: the Bindings a scope declares for a name; the
completion engine is missing. -/
def bindingsOf (scope : List Binding) (x : String) : List Binding :=
  scope.filter (fun b => b.name == x)

/-- Modelled from the spec: shadowing (engine missing), "Bindings declared
directly in S take precedence; only if S has no Binding for the name does
resolution continue to the parent scope, and so on to the module scope". -/
def visibleBindings : List (List Binding) → String → List Binding
  | [], _ => []
  | S :: outer, x =>
    match bindingsOf S x with
    | [] => visibleBindings outer x
    | b :: bs => b :: bs

/-- Modelled from the spec: the single candidate type on which "every reachable
Binding agrees", if there is one; the completion engine is missing. -/
def agreedType : List Binding → Option String
  | [] => none
  | b :: rest =>
    match b.types with
    | [T] => if rest.all (fun c => c.types == [T]) then some T else none
    | _ => none

/-- Modelled from the spec: the flow-merge rule (engine missing), applied to
the Bindings that can reach the use point: "if every reachable Binding agrees
on the same single candidate type, the merged result is that singleton type;
if they disagree, the merged result is the union of all reachable candidate
types (conservative policy)". -/
def flowMerge (reachable : List Binding) : List String :=
  match agreedType reachable with
  | some T => [T]
  | none => (reachable.flatMap (fun b => b.types)).dedup

/-- Modelled from the spec: step 3 of completion (engine missing), resolving
the type "by looking up its root name's Binding in the enclosing-scope chain
and applying the flow-merge rule".  Which Bindings "can reach a given use
point" the spec leaves open: it is the parameter `reaches`. -/
def resolve (reaches : Binding → Bool) (chain : List (List Binding)) (x : String) :
    List String :=
  flowMerge ((visibleBindings chain x).filter reaches)

/-- Modelled from the spec: step 3 of completion (engine missing): "if
resolution yields exactly one type, the proposal set is that type's declared
members", for more than one type the union, and "if resolution yields no type,
the proposal set is empty". -/
def proposalsOf (types : List ClassType) : List String → List String
  | [] => []
  | [T] => (membersOf types T).dedup
  | T :: U :: Ts => ((T :: U :: Ts).flatMap (membersOf types)).dedup

/-- Modelled from the spec: step 4 of completion (engine missing), "every name
with at least one Binding reachable from the innermost scope outward through
all ancestor scopes, each name counted once", "with no type filtering". -/
def bareNames (chain : List (List Binding)) : List String :=
  (chain.flatten.map (fun b => b.name)).dedup

/-- Modelled from the spec: step 2 of completion (engine missing), the context
found before the cursor: member access `<expr> .` with the root name of
`<expr>`, or with none when the expression is unparseable, and bare name
otherwise.  The tokens are read by the external lexer. -/
inductive Context where
  | member (target : Option String)
  | bare
  deriving DecidableEq, Repr

/-- Modelled from the spec: the Completion Resolution Engine (missing), from
the scope tree of the unit, the cursor and the context to the proposals, a
list without duplicates whose order has no meaning.  "Cursor outside any
parsed span" and "unparseable preceding expression" give the empty set. -/
def complete (types : List ClassType) (reaches : Binding → Bool) (root : Scope)
    (cursor : Pos) (ctx : Context) : List String :=
  match locate root cursor with
  | [] => []
  | S :: outer =>
    match ctx with
    | .member none => []
    | .member (some x) => proposalsOf types (resolve reaches (S :: outer) x)
    | .bare => bareNames (S :: outer)

/-! ### The scope trees of the test cases

The scope trees that the rules of section 4.3 give for the programs of
`Python/PyCompletionTest.cpp`.  Lines and columns are those of the test cases'
`lineCol_`, which count the line after the opening of the raw string as line
`0`. -/

/-- Every Binding can reach the use point: in the test cases the cursor lies
behind all assignments. -/
def allReach : Binding → Bool := fun _ => true

/-- The class type of test cases 1, 3 and 5, with the members the test cases
expect of `Point`. -/
def pointTypes : List ClassType := [⟨"Point", ["x", "y", "__init__"]⟩]

/-- The class types of test cases 6 and 7: `class A: a = 1` and
`class B: b = "b"`. -/
def abTypes : List ClassType := [⟨"A", ["a"]⟩, ⟨"B", ["b"]⟩]

/-- The class body of `Point` (lines 1 to 4) with the body of `__init__`
inside it. -/
def pointScope : Scope :=
  .mk ⟨⟨1, 0⟩, ⟨4, 18⟩⟩ [⟨"__init__", 2, [], []⟩]
    [.mk ⟨⟨2, 4⟩, ⟨4, 18⟩⟩ [⟨"self", 2, [], []⟩, ⟨"x", 2, [], []⟩, ⟨"y", 2, [], []⟩] []]

/-- The class bodies of `A` (lines 1 and 2) and `B` (lines 4 and 5). -/
def abScopes : List Scope :=
  [.mk ⟨⟨1, 0⟩, ⟨2, 9⟩⟩ [⟨"a", 2, candidateTypes ["A", "B"] (some .other), []⟩] [],
   .mk ⟨⟨4, 0⟩, ⟨5, 11⟩⟩ [⟨"b", 5, candidateTypes ["A", "B"] (some .other), []⟩] []]

/-- Test case 1: `class Point` with `__init__` and `show` (lines 1 to 7), then
`p =` on line 9, an assignment without a right-hand side. -/
def pyTestCase1 : Scope :=
  .mk ⟨⟨0, 0⟩, ⟨13, 0⟩⟩
    [⟨"Point", 1, [], []⟩, ⟨"p", 9, candidateTypes ["Point"] none, []⟩]
    [.mk ⟨⟨1, 0⟩, ⟨7, 21⟩⟩ [⟨"__init__", 2, [], []⟩, ⟨"show", 5, [], []⟩]
      [.mk ⟨⟨2, 4⟩, ⟨4, 18⟩⟩ [⟨"self", 2, [], []⟩, ⟨"x", 2, [], []⟩, ⟨"y", 2, [], []⟩] [],
       .mk ⟨⟨5, 4⟩, ⟨7, 21⟩⟩ [⟨"self", 5, [], []⟩] []]]

/-- Test case 3: `class Point`, then `if a: p = Point()` (lines 7 and 8), the
cursor behind `p.` on line 10. -/
def pyTestCase3 : Scope :=
  .mk ⟨⟨0, 0⟩, ⟨14, 0⟩⟩
    [⟨"Point", 1, [], []⟩, ⟨"p", 8, candidateTypes ["Point"] (some (.call "Point")), [1]⟩]
    [pointScope]

/-- Test case 5: `class Point`, `p = Point()` on line 7, then `def foo():`
(lines 9 and 10) with the cursor behind `p.` inside it. -/
def pyTestCase5 : Scope :=
  .mk ⟨⟨0, 0⟩, ⟨14, 0⟩⟩
    [⟨"Point", 1, [], []⟩, ⟨"p", 7, candidateTypes ["Point"] (some (.call "Point")), []⟩,
     ⟨"foo", 9, [], []⟩]
    [pointScope, .mk ⟨⟨9, 0⟩, ⟨10, 6⟩⟩ [] []]

/-- Test case 6: classes `A` and `B`, `p = A()` on line 7, then `def foo():`
(lines 9 to 11) with `p = B()` and the cursor behind `p.` inside it. -/
def pyTestCase6 : Scope :=
  .mk ⟨⟨0, 0⟩, ⟨15, 0⟩⟩
    [⟨"A", 1, [], []⟩, ⟨"B", 4, [], []⟩,
     ⟨"p", 7, candidateTypes ["A", "B"] (some (.call "A")), []⟩, ⟨"foo", 9, [], []⟩]
    (abScopes ++
      [.mk ⟨⟨9, 0⟩, ⟨11, 6⟩⟩ [⟨"p", 10, candidateTypes ["A", "B"] (some (.call "B")), []⟩] []])

/-- Test case 7: classes `A` and `B`, then `if x: p = A() else: p = A()`
(lines 8 to 11), the cursor behind `p.` on line 13. -/
def pyTestCase7 : Scope :=
  .mk ⟨⟨0, 0⟩, ⟨17, 0⟩⟩
    [⟨"A", 1, [], []⟩, ⟨"B", 4, [], []⟩,
     ⟨"p", 9, candidateTypes ["A", "B"] (some (.call "A")), [1]⟩,
     ⟨"p", 11, candidateTypes ["A", "B"] (some (.call "A")), [2]⟩]
    abScopes

/-! ## Category predicates -/

section Categories

open Kind Ast

theorem kindType_size_eq : KindType.size = 65536 := by
  norm_num [KindType.size]

theorem isOf_ofMixin (M : Mixins) (hM : M.Fits) (c : Category)
    (i : Nat) (hi : i < (M.entries c).length) (d : Category) :
    isOf M d (Ast.ofKind (ofMixin M c i)) = decide (d = c) := by
  unfold Mixins.Fits at hM
  have h16 := kindType_size_eq
  rw [h16] at hM
  cases c <;> cases d <;>
    simp only [isOf, isName, isSpec, isAttr, isDecl, isExpr, isStmt, checkKind,
      Ast.ofKind, Ast.default, toKindType, h16,
      ofMixin, firstMarker, Mixins.entries, Kind.Filter, Generator, Program,
      LastStmtMarker__, FirstStmtMarker__, LastExprMarker__, FirstExprMarker__,
      LastDeclMarker__, FirstDeclMarker__, LastAttrMarker__, FirstAttrMarker__,
      LastSpecMarker__, FirstSpecMarker__, LastNameMarker__, FirstNameMarker__,
      Invalid] at * <;>
    simp <;> omega

theorem isOf_topLevel (M : Mixins) (hM : M.Fits) (k : Nat)
    (hk : k = Program M ∨ k = Generator M ∨ k = Kind.Filter M) (d : Category) :
    isOf M d (Ast.ofKind k) = false := by
  unfold Mixins.Fits at hM
  have h16 := kindType_size_eq
  rw [h16] at hM
  rcases hk with rfl | rfl | rfl <;> cases d <;>
    simp only [isOf, isName, isSpec, isAttr, isDecl, isExpr, isStmt, checkKind,
      Ast.ofKind, Ast.default, toKindType, h16,
      Kind.Filter, Generator, Program,
      LastStmtMarker__, FirstStmtMarker__, LastExprMarker__, FirstExprMarker__,
      LastDeclMarker__, FirstDeclMarker__, LastAttrMarker__, FirstAttrMarker__,
      LastSpecMarker__, FirstSpecMarker__, LastNameMarker__, FirstNameMarker__,
      Invalid] at * <;>
    simp <;> omega

/-- C1: a node whose kind is an enumerator declared by the mixin of category
`c` satisfies the predicate of category `c` and no other: each of the six
predicates is true exactly when it is the one of `c`, so exactly one of
`isName`, `isSpec`, `isAttr`, `isDecl`, `isExpr`, `isStmt` is true. -/
theorem category_predicate_of_mixin_kind (M : Mixins) (hM : M.Fits) (c : Category)
    (i : Nat) (hi : i < (M.entries c).length) :
    (∀ d : Category, isOf M d (Ast.ofKind (ofMixin M c i)) = true ↔ d = c) ∧
    List.count true
      [isName M (Ast.ofKind (ofMixin M c i)), isSpec M (Ast.ofKind (ofMixin M c i)),
       isAttr M (Ast.ofKind (ofMixin M c i)), isDecl M (Ast.ofKind (ofMixin M c i)),
       isExpr M (Ast.ofKind (ofMixin M c i)), isStmt M (Ast.ofKind (ofMixin M c i))] = 1 := by
  have h := isOf_ofMixin M hM c i hi
  refine ⟨fun d => by rw [h d]; simp, ?_⟩
  have hN := h .Name
  have hS := h .Spec
  have hA := h .Attr
  have hD := h .Decl
  have hE := h .Expr
  have hT := h .Stmt
  simp only [isOf] at hN hS hA hD hE hT
  rw [hN, hS, hA, hD, hE, hT]
  cases c <;> decide

/-- Witness of C1 on the sample mixins: the second `Decl` entry. -/
theorem category_predicate_of_mixin_kind_witness :
    demoMixins.Fits ∧ 1 < (demoMixins.entries .Decl).length ∧
    ofMixin demoMixins .Decl 1 = 15 ∧
    isDecl demoMixins (Ast.ofKind 15) = true ∧
    isName demoMixins (Ast.ofKind 15) = false ∧
    isSpec demoMixins (Ast.ofKind 15) = false ∧
    isAttr demoMixins (Ast.ofKind 15) = false ∧
    isExpr demoMixins (Ast.ofKind 15) = false ∧
    isStmt demoMixins (Ast.ofKind 15) = false := by
  have h := (category_predicate_of_mixin_kind demoMixins (by decide) .Decl 1 (by decide)).1
  have e : ofMixin demoMixins .Decl 1 = 15 := by decide
  rw [e] at h
  refine ⟨by decide, by decide, e, (h .Decl).2 rfl, ?_, ?_, ?_, ?_, ?_⟩
  · have := h .Name; simp only [isOf] at this; cases hb : isName demoMixins (Ast.ofKind 15)
    · rfl
    · exact absurd (this.1 hb) (by decide)
  · have := h .Spec; simp only [isOf] at this; cases hb : isSpec demoMixins (Ast.ofKind 15)
    · rfl
    · exact absurd (this.1 hb) (by decide)
  · have := h .Attr; simp only [isOf] at this; cases hb : isAttr demoMixins (Ast.ofKind 15)
    · rfl
    · exact absurd (this.1 hb) (by decide)
  · have := h .Expr; simp only [isOf] at this; cases hb : isExpr demoMixins (Ast.ofKind 15)
    · rfl
    · exact absurd (this.1 hb) (by decide)
  · have := h .Stmt; simp only [isOf] at this; cases hb : isStmt demoMixins (Ast.ofKind 15)
    · rfl
    · exact absurd (this.1 hb) (by decide)

/-- C2: a node constructed with kind `Program`, `Generator` or `Filter`
satisfies none of `isName`, `isSpec`, `isAttr`, `isDecl`, `isExpr`, `isStmt`. -/
theorem top_level_kind_in_no_category (M : Mixins) (hM : M.Fits) (k : Nat)
    (hk : k = Program M ∨ k = Generator M ∨ k = Kind.Filter M) :
    isName M (Ast.ofKind k) = false ∧ isSpec M (Ast.ofKind k) = false ∧
    isAttr M (Ast.ofKind k) = false ∧ isDecl M (Ast.ofKind k) = false ∧
    isExpr M (Ast.ofKind k) = false ∧ isStmt M (Ast.ofKind k) = false :=
  ⟨isOf_topLevel M hM k hk .Name, isOf_topLevel M hM k hk .Spec,
   isOf_topLevel M hM k hk .Attr, isOf_topLevel M hM k hk .Decl,
   isOf_topLevel M hM k hk .Expr, isOf_topLevel M hM k hk .Stmt⟩

/-- Witness of C2 on the sample mixins: `Generator` is the value 27. -/
theorem top_level_kind_in_no_category_witness :
    Generator demoMixins = 27 ∧
    isName demoMixins (Ast.ofKind 27) = false ∧ isSpec demoMixins (Ast.ofKind 27) = false ∧
    isAttr demoMixins (Ast.ofKind 27) = false ∧ isDecl demoMixins (Ast.ofKind 27) = false ∧
    isExpr demoMixins (Ast.ofKind 27) = false ∧ isStmt demoMixins (Ast.ofKind 27) = false :=
  ⟨by decide,
   top_level_kind_in_no_category demoMixins (by decide) 27 (Or.inr (Or.inl (by decide)))⟩

theorem isOf_iff_open (M : Mixins) (hM : M.Fits) (c : Category) (k : Nat)
    (hk : k < KindType.size) :
    isOf M c (Ast.ofKind k) = true ↔ firstMarker M c < k ∧ k < lastMarker M c := by
  unfold Mixins.Fits at hM
  have h16 := kindType_size_eq
  rw [h16] at hM hk
  cases c <;>
    simp only [isOf, isName, isSpec, isAttr, isDecl, isExpr, isStmt, checkKind,
      Ast.ofKind, Ast.default, toKindType, h16, firstMarker, lastMarker,
      Kind.Filter, Generator, Program,
      LastStmtMarker__, FirstStmtMarker__, LastExprMarker__, FirstExprMarker__,
      LastDeclMarker__, FirstDeclMarker__, LastAttrMarker__, FirstAttrMarker__,
      LastSpecMarker__, FirstSpecMarker__, LastNameMarker__, FirstNameMarker__,
      Invalid, Bool.and_eq_true, decide_eq_true_eq] at * <;>
    omega

theorem marker_lt_size (M : Mixins) (hM : M.Fits) (c : Category) :
    firstMarker M c < KindType.size ∧ lastMarker M c < KindType.size ∧
    firstMarker M c < lastMarker M c ∧ lastMarker M c < Program M := by
  unfold Mixins.Fits at hM
  cases c <;>
    simp only [firstMarker, lastMarker, Kind.Filter, Generator, Program,
      LastStmtMarker__, FirstStmtMarker__, LastExprMarker__, FirstExprMarker__,
      LastDeclMarker__, FirstDeclMarker__, LastAttrMarker__, FirstAttrMarker__,
      LastSpecMarker__, FirstSpecMarker__, LastNameMarker__, FirstNameMarker__,
      Invalid] at * <;>
    omega

theorem isOf_exclusive (M : Mixins) (hM : M.Fits) (k : Nat) (hk : k < KindType.size)
    (c d : Category) (hcd : c ≠ d) :
    ¬ (isOf M c (Ast.ofKind k) = true ∧ isOf M d (Ast.ofKind k) = true) := by
  rw [isOf_iff_open M hM c k hk, isOf_iff_open M hM d k hk]
  cases c <;> cases d <;>
    first
      | exact absurd rfl hcd
      | (simp only [firstMarker, lastMarker,
          LastStmtMarker__, FirstStmtMarker__, LastExprMarker__, FirstExprMarker__,
          LastDeclMarker__, FirstDeclMarker__, LastAttrMarker__, FirstAttrMarker__,
          LastSpecMarker__, FirstSpecMarker__, LastNameMarker__, FirstNameMarker__,
          Invalid]
         omega)

theorem count_true_le_one (a b c d e f : Bool)
    (hab : ¬ (a = true ∧ b = true)) (hac : ¬ (a = true ∧ c = true))
    (had : ¬ (a = true ∧ d = true)) (hae : ¬ (a = true ∧ e = true))
    (haf : ¬ (a = true ∧ f = true)) (hbc : ¬ (b = true ∧ c = true))
    (hbd : ¬ (b = true ∧ d = true)) (hbe : ¬ (b = true ∧ e = true))
    (hbf : ¬ (b = true ∧ f = true)) (hcd : ¬ (c = true ∧ d = true))
    (hce : ¬ (c = true ∧ e = true)) (hcf : ¬ (c = true ∧ f = true))
    (hde : ¬ (d = true ∧ e = true)) (hdf : ¬ (d = true ∧ f = true))
    (hef : ¬ (e = true ∧ f = true)) :
    List.count true [a, b, c, d, e, f] ≤ 1 := by
  cases a <;> cases b <;> cases c <;> cases d <;> cases e <;> cases f <;>
    first
      | decide
      | simp_all

/-- C15, as amended: each category predicate is an open range test on the
16-bit kind value: it is true exactly when the value lies strictly between the
two markers of the category, so both marker values give false. -/
theorem category_predicate_is_open_range (M : Mixins) (hM : M.Fits) (c : Category)
    (k : Nat) (hk : k < KindType.size) :
    (isOf M c (Ast.ofKind k) = true ↔ firstMarker M c < k ∧ k < lastMarker M c) ∧
    isOf M c (Ast.ofKind (firstMarker M c)) = false ∧
    isOf M c (Ast.ofKind (lastMarker M c)) = false := by
  obtain ⟨hf, hl, _, _⟩ := marker_lt_size M hM c
  refine ⟨isOf_iff_open M hM c k hk, ?_, ?_⟩
  · cases h : isOf M c (Ast.ofKind (firstMarker M c))
    · rfl
    · have := (isOf_iff_open M hM c _ hf).1 h
      omega
  · cases h : isOf M c (Ast.ofKind (lastMarker M c))
    · rfl
    · have := (isOf_iff_open M hM c _ hl).1 h
      omega

/-- Witness of C15 as amended, on the sample mixins: the value 7 lies strictly
between the `Spec` markers 5 and 9; the markers themselves do not. -/
theorem category_predicate_is_open_range_witness :
    (isSpec demoMixins (Ast.ofKind 7) = true ↔
      FirstSpecMarker__ demoMixins < 7 ∧ 7 < LastSpecMarker__ demoMixins) ∧
    isSpec demoMixins (Ast.ofKind (FirstSpecMarker__ demoMixins)) = false ∧
    isSpec demoMixins (Ast.ofKind (LastSpecMarker__ demoMixins)) = false :=
  category_predicate_is_open_range demoMixins (by decide) .Spec 7 (by decide)

/-- C15, as stated, fails: `isName` is false at `FirstNameMarker__`, which the
half-open range from the first marker contains, and false at
`LastNameMarker__`, which the half-open range up to the last marker contains. -/
theorem category_predicate_not_half_open :
    isName demoMixins (Ast.ofKind (FirstNameMarker__ demoMixins)) ≠
      halfOpenFrom (FirstNameMarker__ demoMixins) (LastNameMarker__ demoMixins)
        (FirstNameMarker__ demoMixins) ∧
    isName demoMixins (Ast.ofKind (LastNameMarker__ demoMixins)) ≠
      halfOpenUpTo (FirstNameMarker__ demoMixins) (LastNameMarker__ demoMixins)
        (LastNameMarker__ demoMixins) := by
  decide

/-- C16: a 16-bit kind value that is `Invalid`, a first or last marker, or
greater than `Filter` satisfies none of the six category predicates; nor does
a default-constructed node, whose kind is `Invalid`; and no 16-bit kind value
satisfies more than one of the six. -/
theorem non_category_kind_in_no_category (M : Mixins) (hM : M.Fits) (k : Nat)
    (hk : k < KindType.size)
    (h : k = Invalid ∨ (∃ c, k = firstMarker M c ∨ k = lastMarker M c) ∨ Kind.Filter M < k)
    (j : Nat) (hj : j < KindType.size) :
    (isName M (Ast.ofKind k) = false ∧ isSpec M (Ast.ofKind k) = false ∧
     isAttr M (Ast.ofKind k) = false ∧ isDecl M (Ast.ofKind k) = false ∧
     isExpr M (Ast.ofKind k) = false ∧ isStmt M (Ast.ofKind k) = false) ∧
    (Ast.default.kind = Invalid ∧ Ast.default = Ast.ofKind Invalid) ∧
    List.count true
      [isName M (Ast.ofKind j), isSpec M (Ast.ofKind j), isAttr M (Ast.ofKind j),
       isDecl M (Ast.ofKind j), isExpr M (Ast.ofKind j), isStmt M (Ast.ofKind j)] ≤ 1 := by
  have hnone : ∀ d : Category, isOf M d (Ast.ofKind k) = false := by
    intro d
    cases hd : isOf M d (Ast.ofKind k)
    · rfl
    · exfalso
      have hopen := (isOf_iff_open M hM d k hk).1 hd
      have hF := hM
      unfold Mixins.Fits at hF
      rcases h with h | ⟨c, h | h⟩ | h
      · simp only [Invalid] at h; omega
      · subst h
        cases c <;> cases d <;>
          simp only [firstMarker, lastMarker,
            LastStmtMarker__, FirstStmtMarker__, LastExprMarker__, FirstExprMarker__,
            LastDeclMarker__, FirstDeclMarker__, LastAttrMarker__, FirstAttrMarker__,
            LastSpecMarker__, FirstSpecMarker__, LastNameMarker__, FirstNameMarker__,
            Invalid] at hopen <;>
          omega
      · subst h
        cases c <;> cases d <;>
          simp only [firstMarker, lastMarker,
            LastStmtMarker__, FirstStmtMarker__, LastExprMarker__, FirstExprMarker__,
            LastDeclMarker__, FirstDeclMarker__, LastAttrMarker__, FirstAttrMarker__,
            LastSpecMarker__, FirstSpecMarker__, LastNameMarker__, FirstNameMarker__,
            Invalid] at hopen <;>
          omega
      · have := (marker_lt_size M hM d).2.2.2
        simp only [Kind.Filter, Generator] at h
        omega
  refine ⟨⟨hnone .Name, hnone .Spec, hnone .Attr, hnone .Decl, hnone .Expr, hnone .Stmt⟩,
    ⟨rfl, by decide⟩, ?_⟩
  have ex := isOf_exclusive M hM j hj
  exact count_true_le_one _ _ _ _ _ _
    (ex .Name .Spec (by decide)) (ex .Name .Attr (by decide)) (ex .Name .Decl (by decide))
    (ex .Name .Expr (by decide)) (ex .Name .Stmt (by decide)) (ex .Spec .Attr (by decide))
    (ex .Spec .Decl (by decide)) (ex .Spec .Expr (by decide)) (ex .Spec .Stmt (by decide))
    (ex .Attr .Decl (by decide)) (ex .Attr .Expr (by decide)) (ex .Attr .Stmt (by decide))
    (ex .Decl .Expr (by decide)) (ex .Decl .Stmt (by decide)) (ex .Expr .Stmt (by decide))

/-- Witness of C16 on the sample mixins: the marker `LastDeclMarker__`, the
value 16, is in no category, and the value 18 is in at most one. -/
theorem non_category_kind_in_no_category_witness :
    (isName demoMixins (Ast.ofKind 16) = false ∧ isSpec demoMixins (Ast.ofKind 16) = false ∧
     isAttr demoMixins (Ast.ofKind 16) = false ∧ isDecl demoMixins (Ast.ofKind 16) = false ∧
     isExpr demoMixins (Ast.ofKind 16) = false ∧ isStmt demoMixins (Ast.ofKind 16) = false) ∧
    (Ast.default.kind = Invalid ∧ Ast.default = Ast.ofKind Invalid) ∧
    List.count true
      [isName demoMixins (Ast.ofKind 18), isSpec demoMixins (Ast.ofKind 18),
       isAttr demoMixins (Ast.ofKind 18), isDecl demoMixins (Ast.ofKind 18),
       isExpr demoMixins (Ast.ofKind 18), isStmt demoMixins (Ast.ofKind 18)] ≤ 1 :=
  non_category_kind_in_no_category demoMixins (by decide) 16 (by decide)
    (Or.inr (Or.inl ⟨.Decl, Or.inr (by decide)⟩)) 18 (by decide)

end Categories

/-! ## `kindStr` -/

section KindStr

open Kind Ast

theorem lookup_mixinCases_skip (k : Nat) (rest : List (Nat × String)) :
    ∀ (l : List (String × String)) (label : Nat),
      label + l.length ≤ KindType.size → (k < label ∨ label + l.length ≤ k) →
      (mixinCases label l ++ rest).lookup k = rest.lookup k := by
  intro l
  induction l with
  | nil => intro label _ _; simp [mixinCases]
  | cons e l ih =>
    intro label hfit hk
    obtain ⟨node, kind⟩ := e
    simp only [List.length_cons] at hfit hk
    have hlab : toKindType label = label := by
      unfold toKindType; exact Nat.mod_eq_of_lt (by omega)
    have hne : (k == label) = false := by
      simp only [beq_eq_false_iff_ne, ne_eq]; omega
    simp only [mixinCases, List.cons_append, List.lookup_cons, hlab, hne]
    exact ih (label + 1) (by omega) (by omega)

theorem lookup_mixinCases_hit (rest : List (Nat × String)) :
    ∀ (l : List (String × String)) (label i : Nat) (hi : i < l.length),
      label + l.length ≤ KindType.size →
      (mixinCases label l ++ rest).lookup (label + i) =
        some ((l.get ⟨i, hi⟩).1 ++ (l.get ⟨i, hi⟩).2) := by
  intro l
  induction l with
  | nil => intro label i hi; simp at hi
  | cons e l ih =>
    intro label i hi hfit
    obtain ⟨node, kind⟩ := e
    simp only [List.length_cons] at hfit hi
    have hlab : toKindType label = label := by
      unfold toKindType; exact Nat.mod_eq_of_lt (by omega)
    cases i with
    | zero => simp [mixinCases, List.lookup_cons, hlab]
    | succ j =>
      have hne : (label + (j + 1) == label) = false := by
        simp only [beq_eq_false_iff_ne, ne_eq]; omega
      simp only [mixinCases, List.cons_append, List.lookup_cons, hlab, hne]
      have := ih (label + 1) j (by omega) (by omega)
      rw [show label + (j + 1) = label + 1 + j by omega]
      simpa using this

theorem switchCases_eq (M : Mixins) :
    switchCases M =
      mixinCases (FirstNameMarker__ M + 1) M.name ++
      (mixinCases (FirstSpecMarker__ M + 1) M.spec ++
      (mixinCases (FirstAttrMarker__ M + 1) M.attr ++
      (mixinCases (FirstDeclMarker__ M + 1) M.decl ++
      (mixinCases (FirstExprMarker__ M + 1) M.expr ++
      (mixinCases (FirstStmtMarker__ M + 1) M.stmt ++ []))))) := by
  simp [switchCases, ofMixin, firstMarker]

/-- A value that lies strictly inside no marker pair has no `case` label. -/
theorem lookup_switchCases_none (M : Mixins) (hM : M.Fits) (k : Nat)
    (hk : ∀ c : Category, k ≤ firstMarker M c ∨ lastMarker M c ≤ k) :
    (switchCases M).lookup k = none := by
  unfold Mixins.Fits at hM
  have hN := hk .Name
  have hS := hk .Spec
  have hA := hk .Attr
  have hD := hk .Decl
  have hE := hk .Expr
  have hT := hk .Stmt
  simp only [firstMarker, lastMarker, Kind.Filter, Generator, Program,
    LastStmtMarker__, FirstStmtMarker__, LastExprMarker__, FirstExprMarker__,
    LastDeclMarker__, FirstDeclMarker__, LastAttrMarker__, FirstAttrMarker__,
    LastSpecMarker__, FirstSpecMarker__, LastNameMarker__, FirstNameMarker__,
    Invalid] at hM hN hS hA hD hE hT
  rw [switchCases_eq]
  simp only [FirstStmtMarker__, LastExprMarker__, FirstExprMarker__,
    LastDeclMarker__, FirstDeclMarker__, LastAttrMarker__, FirstAttrMarker__,
    LastSpecMarker__, FirstSpecMarker__, LastNameMarker__, FirstNameMarker__,
    Invalid]
  rw [lookup_mixinCases_skip k _ M.name _ (by omega) (by omega),
    lookup_mixinCases_skip k _ M.spec _ (by omega) (by omega),
    lookup_mixinCases_skip k _ M.attr _ (by omega) (by omega),
    lookup_mixinCases_skip k _ M.decl _ (by omega) (by omega),
    lookup_mixinCases_skip k _ M.expr _ (by omega) (by omega),
    lookup_mixinCases_skip k _ M.stmt _ (by omega) (by omega)]
  rfl

/-- The enumerator of a mixin entry has a `case` label, which returns the
entry's two identifiers stringized and concatenated. -/
theorem lookup_switchCases_ofMixin (M : Mixins) (hM : M.Fits) (c : Category) (i : Nat)
    (hi : i < (M.entries c).length) :
    (switchCases M).lookup (ofMixin M c i) =
      some (((M.entries c).get ⟨i, hi⟩).1 ++ ((M.entries c).get ⟨i, hi⟩).2) := by
  unfold Mixins.Fits at hM
  simp only [Kind.Filter, Generator, Program,
    LastStmtMarker__, FirstStmtMarker__, LastExprMarker__, FirstExprMarker__,
    LastDeclMarker__, FirstDeclMarker__, LastAttrMarker__, FirstAttrMarker__,
    LastSpecMarker__, FirstSpecMarker__, LastNameMarker__, FirstNameMarker__,
    Invalid] at hM
  rw [switchCases_eq]
  cases c <;>
    simp only [Mixins.entries, ofMixin, firstMarker,
      FirstStmtMarker__, LastExprMarker__, FirstExprMarker__,
      LastDeclMarker__, FirstDeclMarker__, LastAttrMarker__, FirstAttrMarker__,
      LastSpecMarker__, FirstSpecMarker__, LastNameMarker__, FirstNameMarker__,
      Invalid] at hi ⊢
  · exact lookup_mixinCases_hit _ M.name _ i hi (by omega)
  · rw [lookup_mixinCases_skip _ _ M.name _ (by omega) (by omega)]
    exact lookup_mixinCases_hit _ M.spec _ i hi (by omega)
  · rw [lookup_mixinCases_skip _ _ M.name _ (by omega) (by omega),
      lookup_mixinCases_skip _ _ M.spec _ (by omega) (by omega)]
    exact lookup_mixinCases_hit _ M.attr _ i hi (by omega)
  · rw [lookup_mixinCases_skip _ _ M.name _ (by omega) (by omega),
      lookup_mixinCases_skip _ _ M.spec _ (by omega) (by omega),
      lookup_mixinCases_skip _ _ M.attr _ (by omega) (by omega)]
    exact lookup_mixinCases_hit _ M.decl _ i hi (by omega)
  · rw [lookup_mixinCases_skip _ _ M.name _ (by omega) (by omega),
      lookup_mixinCases_skip _ _ M.spec _ (by omega) (by omega),
      lookup_mixinCases_skip _ _ M.attr _ (by omega) (by omega),
      lookup_mixinCases_skip _ _ M.decl _ (by omega) (by omega)]
    exact lookup_mixinCases_hit _ M.expr _ i hi (by omega)
  · rw [lookup_mixinCases_skip _ _ M.name _ (by omega) (by omega),
      lookup_mixinCases_skip _ _ M.spec _ (by omega) (by omega),
      lookup_mixinCases_skip _ _ M.attr _ (by omega) (by omega),
      lookup_mixinCases_skip _ _ M.decl _ (by omega) (by omega),
      lookup_mixinCases_skip _ _ M.expr _ (by omega) (by omega)]
    exact lookup_mixinCases_hit _ M.stmt _ i hi (by omega)

theorem ofMixin_lt_size (M : Mixins) (hM : M.Fits) (c : Category) (i : Nat)
    (hi : i < (M.entries c).length) : ofMixin M c i < KindType.size := by
  unfold Mixins.Fits at hM
  cases c <;>
    simp only [ofMixin, firstMarker, Mixins.entries, Kind.Filter, Generator, Program,
      LastStmtMarker__, FirstStmtMarker__, LastExprMarker__, FirstExprMarker__,
      LastDeclMarker__, FirstDeclMarker__, LastAttrMarker__, FirstAttrMarker__,
      LastSpecMarker__, FirstSpecMarker__, LastNameMarker__, FirstNameMarker__,
      Invalid] at * <;> omega

/-- On the enumerator of a mixin entry `kindStr` returns the entry's name
`#AST_NODE#AST_KIND` and no assertion fails. -/
theorem kindStr_ofMixin (M : Mixins) (hM : M.Fits) (c : Category) (i : Nat)
    (hi : i < (M.entries c).length) :
    Ast.kindStr M (ofMixin M c i) =
      ⟨((M.entries c).get ⟨i, hi⟩).1 ++ ((M.entries c).get ⟨i, hi⟩).2, false⟩ := by
  unfold Ast.kindStr
  have h : toKindType (ofMixin M c i) = ofMixin M c i := by
    unfold toKindType; exact Nat.mod_eq_of_lt (ofMixin_lt_size M hM c i hi)
  rw [h, lookup_switchCases_ofMixin M hM c i hi]

/-- C8: on the top-level kinds `Program`, `Generator` and `Filter`, which have
no `case` label, `kindStr` reaches the `default` label: the assertion fails and
the empty string is returned, not a name. -/
theorem kindStr_top_level_kind (M : Mixins) (hM : M.Fits) (k : Nat)
    (hk : k = Program M ∨ k = Generator M ∨ k = Kind.Filter M) :
    Ast.kindStr M k = ⟨"", true⟩ := by
  have hlt : k < KindType.size := by
    have := hM
    unfold Mixins.Fits at this
    simp only [Kind.Filter, Generator] at this hk
    omega
  have hmod : toKindType k = k := by
    unfold toKindType; exact Nat.mod_eq_of_lt hlt
  have hnone : (switchCases M).lookup k = none := by
    apply lookup_switchCases_none M hM
    intro c
    right
    cases c <;>
      simp only [lastMarker, Kind.Filter, Generator, Program,
        LastStmtMarker__, FirstStmtMarker__, LastExprMarker__, FirstExprMarker__,
        LastDeclMarker__, FirstDeclMarker__, LastAttrMarker__, FirstAttrMarker__,
        LastSpecMarker__, FirstSpecMarker__, LastNameMarker__, FirstNameMarker__,
        Invalid] at hk ⊢ <;> omega
  unfold Ast.kindStr
  rw [hmod, hnone]

/-- Witness of C8 on the sample mixins: `Program` is the value 26 and has no
name, while the last `Stmt` entry, the value 24, has the name `BlockStmt`. -/
theorem kindStr_top_level_kind_witness :
    Program demoMixins = 26 ∧ Ast.kindStr demoMixins 26 = ⟨"", true⟩ ∧
    Ast.kindStr demoMixins 24 = ⟨"BlockStmt", false⟩ :=
  ⟨by decide, kindStr_top_level_kind demoMixins (by decide) 26 (Or.inl (by decide)),
   by decide⟩

theorem lookup_none_of_no_label (k : Nat) :
    ∀ l : List (Nat × String), (∀ e ∈ l, e.1 ≠ k) → l.lookup k = none := by
  intro l
  induction l with
  | nil => intro _; rfl
  | cons e l ih =>
    intro h
    obtain ⟨label, str⟩ := e
    have hne : (k == label) = false := by
      simp only [beq_eq_false_iff_ne, ne_eq]
      exact fun hkl => h (label, str) (List.mem_cons_self _ _) hkl.symm
    simp only [List.lookup_cons, hne]
    exact ih (fun e he => h e (List.mem_cons_of_mem _ he))

/-- C17: on `Kind::Invalid`, and on every kind value that no `case` label of
the switch equals, `kindStr` takes the `default` label and returns the empty
string: the returned value is defined, whether or not the failed assertion is
compiled in. -/
theorem kindStr_default_returns_empty (M : Mixins) (hM : M.Fits) (k : Nat)
    (hk : ∀ e ∈ switchCases M, e.1 ≠ toKindType k) :
    Ast.kindStr M Invalid = ⟨"", true⟩ ∧ (Ast.kindStr M Invalid).value = "" ∧
    Ast.kindStr M k = ⟨"", true⟩ ∧ (Ast.kindStr M k).value = "" := by
  have h0 : Ast.kindStr M Invalid = ⟨"", true⟩ := by
    have hnone : (switchCases M).lookup 0 = none :=
      lookup_switchCases_none M hM 0 (fun c => Or.inl (Nat.zero_le _))
    have hz : toKindType Invalid = 0 := by decide
    unfold Ast.kindStr
    rw [hz, hnone]
  have h1 : Ast.kindStr M k = ⟨"", true⟩ := by
    unfold Ast.kindStr
    rw [lookup_none_of_no_label _ _ hk]
  refine ⟨h0, ?_, h1, ?_⟩
  · rw [h0]
  · rw [h1]

/-- Witness of C17 on the sample mixins: the marker `FirstSpecMarker__`, the
value 5, has no `case` label. -/
theorem kindStr_default_returns_empty_witness :
    Ast.kindStr demoMixins Invalid = ⟨"", true⟩ ∧
    (Ast.kindStr demoMixins Invalid).value = "" ∧
    Ast.kindStr demoMixins 5 = ⟨"", true⟩ ∧ (Ast.kindStr demoMixins 5).value = "" :=
  kindStr_default_returns_empty demoMixins (by decide) 5 (by decide)

end KindStr

/-! ## Mutators -/

section Mutators

/-- C3: every `__BASE__` default (of `set<Attribute>`, of both `set<X>s`
overloads, of `set<X>sSR` and of `set<X>Loc`) is total, returns `nullptr` and
leaves the node as it was: the same kind, variety and allocator tag, the same
child in every slot, the same list in every list slot, the same location in
every location slot. -/
theorem unsupported_mutator_leaves_node {S α L : Type} (n : Node S α L) (p : Option α)
    (l : Option (AstList (Option α))) (loc : L) :
    ((Base.setNAME n p).ret = SelfPtr.null ∧ (Base.setNAME n p).node = n) ∧
    ((Base.setNAMEs_ptr n l).ret = SelfPtr.null ∧ (Base.setNAMEs_ptr n l).node = n) ∧
    ((Base.setNAMEsSR n l).ret = SelfPtr.null ∧ (Base.setNAMEsSR n l).node = n) ∧
    ((Base.setNAMEs n l).ret = SelfPtr.null ∧ (Base.setNAMEs n l).node = n) ∧
    ((Base.setNAMELoc n loc).ret = SelfPtr.null ∧ (Base.setNAMELoc n loc).node = n) ∧
    (Base.setNAME n p).node.bit_ = n.bit_ ∧
    (Base.setNAME n p).node.member_ = n.member_ ∧
    (Base.setNAME n p).node.list_ = n.list_ ∧
    (Base.setNAME n p).node.loc_ = n.loc_ :=
  ⟨⟨rfl, rfl⟩, ⟨rfl, rfl⟩, ⟨rfl, rfl⟩, ⟨rfl, rfl⟩, ⟨rfl, rfl⟩, rfl, rfl, rfl, rfl⟩

variable {S α L : Type} [DecidableEq S]

/-- C4: after `set<X>(c)`, through either overload, the accessor of `X`
returns `c` whatever the slot held; `set<X>(absent)` empties the slot; of two
calls the later one decides; `CREATE_WITH_AST` yields a node holding its
argument. -/
theorem set_then_accessor (n : Node S α L) (X : S) (c d : Option α) :
    (n.setNAME X c).node.MEMBER X = c ∧
    (n.setNAME_ptr X c).node.MEMBER X = c ∧
    (n.setNAME X none).node.MEMBER X = none ∧
    (n.setNAME_ptr X none).node.MEMBER X = none ∧
    ((n.setNAME X c).node.setNAME X d).node.MEMBER X = d ∧
    ((n.setNAME_ptr X c).node.setNAME_ptr X d).node.MEMBER X = d ∧
    (Node.createWithAst n X c).MEMBER X = c := by
  simp [Node.setNAME, Node.setNAME_ptr, Node.MEMBER, Node.createWithAst]

/-- C5: after `merge<X>s(B)` the slot holds a list: `B` itself when the slot
held none, the former items followed by the items of `B` otherwise; in both
cases the former items in their order, then those of `B` in theirs, and their
number is the sum of the two numbers. -/
theorem merge_concatenates (n : Node S α L) (X : S) (B : AstList (Option α)) :
    (n.mergeNAMEs X (some B)).node.MEMBERs X =
      (match n.MEMBERs X with
       | none => some B
       | some A => some ⟨A.elems ++ B.elems⟩) ∧
    slotElems ((n.mergeNAMEs X (some B)).node.MEMBERs X) =
      slotElems (n.MEMBERs X) ++ B.elems ∧
    slotLength ((n.mergeNAMEs X (some B)).node.MEMBERs X) =
      slotLength (n.MEMBERs X) + B.length := by
  unfold Node.mergeNAMEs Node.MEMBERs
  cases h : n.list_ X <;>
    simp [slotElems, slotLength, AstList.merge, AstList.length]

/-- C6: after `add<X>(e)` the slot holds a list whose items are the former
items in their order (none when the slot held no list) followed by `e`, one
more than before; the raw-pointer overload does the same as the owning one. -/
theorem add_appends_last (n : Node S α L) (X : S) (e : Option α) :
    (n.addNAME X e).node.MEMBERs X = some ⟨slotElems (n.MEMBERs X) ++ [e]⟩ ∧
    slotLength ((n.addNAME X e).node.MEMBERs X) = slotLength (n.MEMBERs X) + 1 ∧
    (slotElems ((n.addNAME X e).node.MEMBERs X)).getLast? = some e ∧
    n.addNAME_ptr X e = n.addNAME X e := by
  unfold Node.addNAME Node.addNAME_ptr Node.MEMBERs
  cases h : n.list_ X <;>
    simp [slotElems, slotLength, AstList.append, AstList.create, AstList.length]

/-- C7: after `set<X>s(l)` the list accessor of `X` returns `l`, whatever list
the slot held before: no former item remains unless it is in `l`. -/
theorem set_list_replaces (n : Node S α L) (X : S) (l : Option (AstList (Option α))) :
    (n.setNAMEs X l).node.MEMBERs X = l ∧
    slotElems ((n.setNAMEs X l).node.MEMBERs X) = slotElems l := by
  simp [Node.setNAMEs, Node.MEMBERs]

theorem apply_ret_self (m : Mutator S α L) (n : Node S α L) :
    (m.apply n).ret = SelfPtr.self := by
  cases m <;>
    simp only [Mutator.apply, Node.setNAME_ptr, Node.setNAME, Node.mergeNAMEs, Node.setNAMEs,
      Node.setNAMEsSR, Node.setNAMELoc, Node.addNAME, Node.addNAME_ptr, Override.setNAME,
      Override.setNAMEs_ptr, Override.setNAMEsSR, Override.setNAMEs, Override.setNAMELoc] <;>
    first
      | rfl
      | (split <;> rfl)

theorem apply_kind (m : Mutator S α L) (n : Node S α L) (hm : m.BaseKeepsKind) :
    (m.apply n).node.kind = n.kind := by
  cases m <;>
    simp only [Mutator.apply, Node.setNAME_ptr, Node.setNAME, Node.mergeNAMEs, Node.setNAMEs,
      Node.setNAMEsSR, Node.setNAMELoc, Node.addNAME, Node.addNAME_ptr, Override.setNAME,
      Override.setNAMEs_ptr, Override.setNAMEsSR, Override.setNAMEs, Override.setNAMELoc,
      Mutator.BaseKeepsKind] at hm ⊢ <;>
    first
      | rfl
      | (split <;> rfl)
      | exact hm _ _

theorem chain_map_apply (ms : List (Mutator S α L)) :
    ∀ n : Node S α L,
      chain (ms.map Mutator.apply) n = some (oneByOne (ms.map Mutator.apply) n) := by
  induction ms with
  | nil => intro n; rfl
  | cons m ms ih =>
    intro n
    simp only [List.map_cons, chain, oneByOne, apply_ret_self m n]
    exact ih _

/-- C9: `kind()` of a node constructed with a 16-bit kind value is that value;
no mutator changes what `kind()` returns: not one whose body is in the header,
not a forwarding override (given that the member of the template base it
calls keeps the kind), not a `__BASE__` default. -/
theorem kind_is_stored_and_kept (k : Nat) (hk : k < KindType.size) (m : Mutator S α L)
    (hm : m.BaseKeepsKind) (n : Node S α L) (p : Option α)
    (l : Option (AstList (Option α))) (loc : L) :
    (Ast.ofKind k).kind = k ∧
    (m.apply n).node.kind = n.kind ∧
    (Base.setNAME n p).node.kind = n.kind ∧
    (Base.setNAMEs_ptr n l).node.kind = n.kind ∧
    (Base.setNAMEsSR n l).node.kind = n.kind ∧
    (Base.setNAMEs n l).node.kind = n.kind ∧
    (Base.setNAMELoc n loc).node.kind = n.kind := by
  refine ⟨?_, apply_kind m n hm, rfl, rfl, rfl, rfl, rfl⟩
  have h16 := kindType_size_eq
  rw [h16] at hk
  simp only [Ast.kind, Ast.ofKind, Ast.default, toKindType, h16]
  omega

/-- Witness of C9: the largest 16-bit value, and `add<X>` on a node of the
sample kind 15. -/
theorem kind_is_stored_and_kept_witness :
    (Ast.ofKind 65535).kind = 65535 ∧
    ((Mutator.addNAME "stmts" (some 3)).apply (demoNode 15)).node.kind = 15 := by
  have h := kind_is_stored_and_kept 65535 (by decide) (Mutator.addNAME "stmts" (some 3))
    trivial (demoNode 15) (some 1) none (0, 0)
  exact ⟨h.1, h.2.1.trans (by decide)⟩

/-- C10: every supported mutator, the forwarding overrides included, returns
`this` and never `nullptr`; hence a fluent chain of supported mutators is
defined and leaves the node in the state that the same calls made one after
another leave it in. -/
theorem supported_mutator_returns_self (m : Mutator S α L) (ms : List (Mutator S α L))
    (n : Node S α L) :
    (m.apply n).ret = SelfPtr.self ∧
    chain (ms.map Mutator.apply) n = some (oneByOne (ms.map Mutator.apply) n) ∧
    chain [m.apply] n = some (m.apply n).node :=
  ⟨apply_ret_self m n, chain_map_apply ms n, by
    simp only [chain, apply_ret_self m n]⟩

/-- C18: `set<X>` (both overloads) changes only the child slot `X`;
`add<X>` (both overloads), `merge<X>s` and `set<X>s` change only the list slot
`X`; `set<X>Loc` changes only the location `X`.  The bit-fields (kind, variety,
allocator tag) and every slot `Y` other than `X` are as before, and so are all
slots of the two families the mutator does not target. -/
theorem mutator_changes_only_its_slot (n : Node S α L) (X Y : S) (hY : Y ≠ X)
    (c : Option α) (l : Option (AstList (Option α))) (loc : L) :
    ((n.setNAME X c).node.bit_ = n.bit_ ∧ (n.setNAME X c).node.member_ Y = n.member_ Y ∧
      (n.setNAME X c).node.list_ = n.list_ ∧ (n.setNAME X c).node.loc_ = n.loc_) ∧
    ((n.setNAME_ptr X c).node.bit_ = n.bit_ ∧
      (n.setNAME_ptr X c).node.member_ Y = n.member_ Y ∧
      (n.setNAME_ptr X c).node.list_ = n.list_ ∧ (n.setNAME_ptr X c).node.loc_ = n.loc_) ∧
    ((n.addNAME X c).node.bit_ = n.bit_ ∧ (n.addNAME X c).node.member_ = n.member_ ∧
      (n.addNAME X c).node.list_ Y = n.list_ Y ∧ (n.addNAME X c).node.loc_ = n.loc_) ∧
    ((n.addNAME_ptr X c).node.bit_ = n.bit_ ∧ (n.addNAME_ptr X c).node.member_ = n.member_ ∧
      (n.addNAME_ptr X c).node.list_ Y = n.list_ Y ∧ (n.addNAME_ptr X c).node.loc_ = n.loc_) ∧
    ((n.mergeNAMEs X l).node.bit_ = n.bit_ ∧ (n.mergeNAMEs X l).node.member_ = n.member_ ∧
      (n.mergeNAMEs X l).node.list_ Y = n.list_ Y ∧ (n.mergeNAMEs X l).node.loc_ = n.loc_) ∧
    ((n.setNAMEs X l).node.bit_ = n.bit_ ∧ (n.setNAMEs X l).node.member_ = n.member_ ∧
      (n.setNAMEs X l).node.list_ Y = n.list_ Y ∧ (n.setNAMEs X l).node.loc_ = n.loc_) ∧
    ((n.setNAMELoc X loc).node.bit_ = n.bit_ ∧ (n.setNAMELoc X loc).node.member_ = n.member_ ∧
      (n.setNAMELoc X loc).node.list_ = n.list_ ∧
      (n.setNAMELoc X loc).node.loc_ Y = n.loc_ Y) := by
  refine ⟨?_, ?_, ?_, ?_, ?_, ?_, ?_⟩
  · simp [Node.setNAME, Function.update_noteq hY]
  · simp [Node.setNAME_ptr, Function.update_noteq hY]
  · unfold Node.addNAME
    cases h : n.list_ X <;> simp [Function.update_noteq hY]
  · unfold Node.addNAME_ptr
    cases h : n.list_ X <;> simp [Function.update_noteq hY]
  · unfold Node.mergeNAMEs
    cases h : n.list_ X <;> simp [Function.update_noteq hY]
  · simp [Node.setNAMEs, Function.update_noteq hY]
  · simp [Node.setNAMELoc, Function.update_noteq hY]

/-- Witness of C18: on a node that holds a child in `body` and a list in
`stmts`, `set<X>` on `name` keeps the child in `body`, and `add<X>` on `args`
keeps the list in `stmts`. -/
theorem mutator_changes_only_its_slot_witness :
    (((framedNode.setNAME "name" (some 9)).node.MEMBER "body" = some 4) ∧
      (framedNode.setNAME "name" (some 9)).node.MEMBER "name" = some 9) ∧
    (((framedNode.addNAME "args" (some 9)).node.MEMBERs "stmts" = some ⟨[some 1, some 2]⟩) ∧
      (framedNode.addNAME "args" (some 9)).node.MEMBERs "args" = some ⟨[some 9]⟩) := by
  have h := mutator_changes_only_its_slot framedNode "name" "body" (by decide) (some 9)
    none (0, 0)
  have g := mutator_changes_only_its_slot framedNode "args" "stmts" (by decide) (some 9)
    none (0, 0)
  refine ⟨⟨?_, ?_⟩, ⟨?_, ?_⟩⟩
  · exact h.1.2.1.trans (by decide)
  · simp [Node.setNAME, Node.MEMBER]
  · exact g.2.2.1.2.2.1.trans (by decide)
  · simp [Node.addNAME, Node.MEMBERs, framedNode, demoNode, AstList.create, Function.update]

end Mutators

/-! ## Completion -/

section Completion

theorem flowMerge_of_agree (T : String) :
    ∀ bs : List Binding, bs ≠ [] → (∀ b ∈ bs, b.types = [T]) → flowMerge bs = [T] := by
  intro bs hne hT
  cases bs with
  | nil => exact absurd rfl hne
  | cons b rest =>
    have hb : b.types = [T] := hT b (List.mem_cons_self _ _)
    have hall : rest.all (fun c => c.types == [T]) = true := by
      rw [List.all_eq_true]
      intro c hc
      simp [hT c (List.mem_cons_of_mem _ hc)]
    simp only [flowMerge, agreedType, hb, hall, if_true]

theorem flowMerge_of_no_type :
    ∀ bs : List Binding, (∀ b ∈ bs, b.types = []) → flowMerge bs = [] := by
  intro bs h
  have hflat : bs.flatMap (fun b => b.types) = [] := by
    induction bs with
    | nil => rfl
    | cons b rest ih =>
      simp only [List.flatMap_cons, h b (List.mem_cons_self _ _), List.nil_append]
      exact ih (fun c hc => h c (List.mem_cons_of_mem _ hc))
  cases bs with
  | nil => rfl
  | cons b rest =>
    have hb : b.types = [] := h b (List.mem_cons_self _ _)
    simp only [flowMerge, agreedType, hb, hflat, List.dedup_nil]

theorem bindingsOf_nil_of_unbound (S : List Binding) (x : String)
    (h : ∀ b ∈ S, b.name ≠ x) : bindingsOf S x = [] := by
  unfold bindingsOf
  rw [List.filter_eq_nil_iff]
  intro b hb
  simpa using h b hb

theorem visibleBindings_nil_of_unbound (x : String) :
    ∀ chain : List (List Binding), (∀ S ∈ chain, ∀ b ∈ S, b.name ≠ x) →
      visibleBindings chain x = [] := by
  intro chain
  induction chain with
  | nil => intro _; rfl
  | cons S outer ih =>
    intro h
    have hS := bindingsOf_nil_of_unbound S x (h S (List.mem_cons_self _ _))
    simp only [visibleBindings, hS]
    exact ih (fun S2 hS2 => h S2 (List.mem_cons_of_mem _ hS2))

theorem visibleBindings_cons_of_bound (S : List Binding) (outer : List (List Binding))
    (x : String) (h : bindingsOf S x ≠ []) :
    visibleBindings (S :: outer) x = bindingsOf S x := by
  unfold visibleBindings
  cases hb : bindingsOf S x with
  | nil => exact absurd hb h
  | cons b bs => rfl

theorem visibleBindings_cons_of_unbound (S : List Binding) (outer : List (List Binding))
    (x : String) (h : bindingsOf S x = []) :
    visibleBindings (S :: outer) x = visibleBindings outer x := by
  simp only [visibleBindings, h]

theorem complete_member (types : List ClassType) (reaches : Binding → Bool) (root : Scope)
    (cursor : Pos) (x : String) :
    complete types reaches root cursor (.member (some x)) =
      proposalsOf types (resolve reaches (locate root cursor) x) := by
  unfold complete
  cases h : locate root cursor with
  | nil => rfl
  | cons S outer => rfl

theorem complete_bare (types : List ClassType) (reaches : Binding → Bool) (root : Scope)
    (cursor : Pos) :
    complete types reaches root cursor .bare = bareNames (locate root cursor) := by
  unfold complete
  cases h : locate root cursor with
  | nil => rfl
  | cons S outer => rfl

/-- C11: with `S` the innermost scope at the cursor, member access on a name
that `S` binds is resolved from the Bindings of `S` alone, whatever the outer
scopes bind; for a name that `S` does not bind, it is resolved as in the
parent scope and the scopes around it. -/
theorem nearest_binding_scope_decides (types : List ClassType) (reaches : Binding → Bool)
    (root : Scope) (cursor : Pos) (S : List Binding) (outer : List (List Binding))
    (x : String) (hloc : locate root cursor = S :: outer) :
    (bindingsOf S x ≠ [] →
      complete types reaches root cursor (.member (some x)) =
        proposalsOf types (flowMerge ((bindingsOf S x).filter reaches))) ∧
    (bindingsOf S x ≠ [] →
      ∀ outer2, resolve reaches (S :: outer) x = resolve reaches (S :: outer2) x) ∧
    (bindingsOf S x = [] →
      complete types reaches root cursor (.member (some x)) =
        proposalsOf types (resolve reaches outer x)) := by
  refine ⟨?_, ?_, ?_⟩
  · intro h
    rw [complete_member, hloc]
    unfold resolve
    rw [visibleBindings_cons_of_bound S outer x h]
  · intro h outer2
    unfold resolve
    rw [visibleBindings_cons_of_bound S outer x h, visibleBindings_cons_of_bound S outer2 x h]
  · intro h
    rw [complete_member, hloc]
    unfold resolve
    rw [visibleBindings_cons_of_unbound S outer x h]

/-- Witness of C11: test case 6, where `foo` binds `p` to `B` and the module
binds it to `A`, gives `b` only; test case 5, where `foo` does not bind `p`,
gives the members of the module's `Point`. -/
theorem nearest_binding_scope_decides_witness :
    complete abTypes allReach pyTestCase6 ⟨11, 6⟩ (.member (some "p")) = ["b"] ∧
    complete pointTypes allReach pyTestCase5 ⟨10, 6⟩ (.member (some "p")) =
      ["x", "y", "__init__"] := by
  have h6 := (nearest_binding_scope_decides abTypes allReach pyTestCase6 ⟨11, 6⟩
    [⟨"p", 10, ["B"], []⟩] [pyTestCase6.bindings] "p" (by decide)).1 (by decide)
  have h5 := (nearest_binding_scope_decides pointTypes allReach pyTestCase5 ⟨10, 6⟩
    [] [pyTestCase5.bindings] "p" (by decide)).2.2 (by decide)
  exact ⟨h6.trans (by decide), h5.trans (by decide)⟩

/-- C12: when the Bindings of a name that reach the use point, taken from the
nearest scope that binds it, are at least one and all carry the same single
candidate type `T`, member access on the name proposes exactly the declared
members of `T`, and the name resolves as with a single Binding to `T`. -/
theorem agreeing_branches_merge (types : List ClassType) (reaches : Binding → Bool)
    (root : Scope) (cursor : Pos) (x T : String)
    (hne : (visibleBindings (locate root cursor) x).filter reaches ≠ [])
    (hT : ∀ b ∈ (visibleBindings (locate root cursor) x).filter reaches, b.types = [T]) :
    complete types reaches root cursor (.member (some x)) = (membersOf types T).dedup ∧
    resolve reaches (locate root cursor) x = [T] ∧
    resolve reaches (locate root cursor) x = flowMerge [⟨x, 0, [T], []⟩] := by
  have hres : resolve reaches (locate root cursor) x = [T] := by
    unfold resolve
    exact flowMerge_of_agree T _ hne hT
  refine ⟨?_, hres, ?_⟩
  · rw [complete_member, hres]
    rfl
  · rw [hres]
    simp [flowMerge, agreedType]

/-- Witness of C12: test case 7, `p = A()` in both arms of an `if`/`else`, gives
`a`; test case 3, `p = Point()` in a lone `if`, gives the members of `Point`. -/
theorem agreeing_branches_merge_witness :
    complete abTypes allReach pyTestCase7 ⟨13, 2⟩ (.member (some "p")) = ["a"] ∧
    complete pointTypes allReach pyTestCase3 ⟨10, 2⟩ (.member (some "p")) =
      ["x", "y", "__init__"] := by
  have h7 := (agreeing_branches_merge abTypes allReach pyTestCase7 ⟨13, 2⟩ "p" "A"
    (by decide) (by decide)).1
  have h3 := (agreeing_branches_merge pointTypes allReach pyTestCase3 ⟨10, 2⟩ "p" "Point"
    (by decide) (by decide)).1
  exact ⟨h7.trans (by decide), h3.trans (by decide)⟩

/-- C13: bare-name completion proposes each name once, and proposes exactly the
names that have a Binding in the innermost scope at the cursor or in a scope
around it, whatever the candidate types of the Binding: in test case 1 the
Binding of `p`, whose assignment has no right-hand side, has no candidate
type, and both `p` and `Point` are proposed. -/
theorem bare_name_proposals (types : List ClassType) (reaches : Binding → Bool)
    (root : Scope) (cursor : Pos) :
    (complete types reaches root cursor .bare).Nodup ∧
    (∀ x, x ∈ complete types reaches root cursor .bare ↔
      ∃ S ∈ locate root cursor, ∃ b ∈ S, b.name = x) ∧
    (candidateTypes ["Point"] none = [] ∧
      "p" ∈ complete pointTypes allReach pyTestCase1 ⟨9, 3⟩ .bare ∧
      "Point" ∈ complete pointTypes allReach pyTestCase1 ⟨9, 3⟩ .bare) := by
  refine ⟨?_, ?_, by decide, by decide, by decide⟩
  · rw [complete_bare]
    exact List.nodup_dedup _
  · intro x
    rw [complete_bare]
    simp only [bareNames, List.mem_dedup, List.mem_map, List.mem_flatten]
    constructor
    · rintro ⟨b, ⟨S, hS, hb⟩, rfl⟩
      exact ⟨S, hS, b, hb, rfl⟩
    · rintro ⟨S, hS, b, hb, rfl⟩
      exact ⟨b, ⟨S, hS, hb⟩, rfl⟩

/-- C14: completion is a total function, and it returns no proposal when the
cursor lies outside the span of the unit, when the expression before the dot
is unparseable, and on member access whose target resolves to no type: in
particular when no scope of the chain binds the name, and when every Binding
that reaches the use point has no candidate type. -/
theorem no_type_gives_no_proposal (types : List ClassType) (reaches : Binding → Bool)
    (root : Scope) (cursor : Pos) (ctx : Context)
    (h : root.span.contains cursor = false ∨ ctx = .member none ∨
      ∃ x, ctx = .member (some x) ∧
        (resolve reaches (locate root cursor) x = [] ∨
         (∀ S ∈ locate root cursor, ∀ b ∈ S, b.name ≠ x) ∨
         (∀ b ∈ (visibleBindings (locate root cursor) x).filter reaches, b.types = []))) :
    complete types reaches root cursor ctx = [] := by
  rcases h with h | h | ⟨x, hx, h⟩
  · have hloc : locate root cursor = [] := by simp [locate, h]
    simp [complete, hloc]
  · subst h
    unfold complete
    cases locate root cursor <;> rfl
  · subst hx
    have hres : resolve reaches (locate root cursor) x = [] := by
      rcases h with h | h | h
      · exact h
      · unfold resolve
        rw [visibleBindings_nil_of_unbound x _ h]
        rfl
      · unfold resolve
        exact flowMerge_of_no_type _ h
    rw [complete_member, hres]
    rfl

/-- Witness of C14: in test case 6 the name `q` is bound nowhere; in test case
1 the assignment to `p` has no right-hand side; in test case 6 line 20 lies
outside the unit. -/
theorem no_type_gives_no_proposal_witness :
    complete abTypes allReach pyTestCase6 ⟨11, 6⟩ (.member (some "q")) = [] ∧
    complete pointTypes allReach pyTestCase1 ⟨9, 3⟩ (.member (some "p")) = [] ∧
    complete abTypes allReach pyTestCase6 ⟨20, 0⟩ .bare = [] :=
  ⟨no_type_gives_no_proposal abTypes allReach pyTestCase6 ⟨11, 6⟩ (.member (some "q"))
      (Or.inr (Or.inr ⟨"q", rfl, Or.inr (Or.inl (by decide))⟩)),
   no_type_gives_no_proposal pointTypes allReach pyTestCase1 ⟨9, 3⟩ (.member (some "p"))
      (Or.inr (Or.inr ⟨"p", rfl, Or.inr (Or.inr (by decide))⟩)),
   no_type_gives_no_proposal abTypes allReach pyTestCase6 ⟨20, 0⟩ .bare
      (Or.inl (by decide))⟩

end Completion

end uaiso
